import Mathlib

/-!
Verification of the GO-DESi Marketing Dashboard data pipeline (src/app.py).

The pipeline is shallowly embedded: a spreadsheet is a `Sheet` (a header list
plus rows given as association lists from column name to cell text, the cells
already rendered as strings, matching the `astype(str)` conversions the code
performs before every string operation).  `load_data` and
`load_brand_strength` mirror the two loader functions, `filtered` /
`filtered_t2` the per-tab filter passes, `benchmark` and the series
aggregation (`trend`, `trend_bs`) the chart computations.  Percentage metrics
are modelled as rationals; `pd.to_numeric(..., errors="coerce").fillna(0)` is
modelled by a decimal-numeral parser defaulting to 0.
-/

attribute [local semireducible] Rat.add Rat.mul Rat.inv Rat.sub

namespace GoDesi

instance {ε α : Type} [DecidableEq ε] [DecidableEq α] : DecidableEq (Except ε α) := fun a b =>
  match a, b with
  | .error e, .error f =>
    if h : e = f then .isTrue (congrArg Except.error h)
    else .isFalse (fun hc => h (by cases hc; rfl))
  | .ok x, .ok y =>
    if h : x = y then .isTrue (congrArg Except.ok h)
    else .isFalse (fun hc => h (by cases hc; rfl))
  | .error _, .ok _ => .isFalse (fun hc => Except.noConfusion hc)
  | .ok _, .error _ => .isFalse (fun hc => Except.noConfusion hc)

/-- Python `str.lower` (ASCII case folding, which is all the data uses). -/
def lowerStr (s : String) : String := ⟨s.data.map Char.toLower⟩

def isSpaceChar (c : Char) : Bool := c == ' ' || c == '\t' || c == '\n' || c == '\r'

/-- Python `str.strip`: drop whitespace from both ends. -/
def trimStr (s : String) : String :=
  ⟨((s.data.dropWhile isSpaceChar).reverse.dropWhile isSpaceChar).reverse⟩

/-- Python `str.title` restricted to ASCII: uppercase a letter that follows a
non-letter, lowercase the other letters.  The boolean argument records whether
the previous character was alphabetic. -/
def titleAux : Bool → List Char → List Char
  | _, [] => []
  | prev, c :: cs =>
    (if c.isAlpha then (if prev then c.toLower else c.toUpper) else c) :: titleAux c.isAlpha cs

def titleStr (s : String) : String := ⟨titleAux false s.data⟩

/-- Contiguous-sublist (substring) test on character lists. -/
def isSubChars (pat : List Char) : List Char → Bool
  | [] => pat.isEmpty
  | c :: cs => List.isPrefixOf pat (c :: cs) || isSubChars pat cs

/-- `re.search(pat, c, re.I)` for a literal lowercase pattern `pat`:
case-insensitive substring search. -/
def searchCI (pat c : String) : Bool := isSubChars pat.data (lowerStr c).data

-- ---------------------------------------------------------------------------
-- Column detection predicates (load_data, app.py lines 25-30 and 64-70)
-- ---------------------------------------------------------------------------

def monthP (c : String) : Bool := searchCI "month" c
def regionP (c : String) : Bool := searchCI "region" c
/-- `re.fullmatch("category", c.strip(), re.I)`. -/
def categoryP (c : String) : Bool := lowerStr (trimStr c) == "category"
def platformP (c : String) : Bool := searchCI "platform" c
def keywordTypeP (c : String) : Bool := searchCI "keyword type" c
/-- `re.fullmatch("keyword", c.strip(), re.I)`. -/
def keywordP (c : String) : Bool := lowerStr (trimStr c) == "keyword"
def volumeShareP (c : String) : Bool := searchCI "volume share" c

def isWordChar (c : Char) : Bool := c.isAlphanum || c == '_'

/-- Scanner for `re.search(r"\bad", c, re.I)`: an occurrence of "ad" preceded
by the start of the string or a non-word character.  The boolean argument says
whether the current position is at a word boundary. -/
def adScan : Bool → List Char → Bool
  | _, [] => false
  | b, c :: cs => (b && List.isPrefixOf ['a', 'd'] (c :: cs)) || adScan (!isWordChar c) cs

def adP (c : String) : Bool := adScan true (lowerStr c).data

/-- Scanner for `re.search("cat.*imp", c, re.I)`: "cat" followed, possibly at a
distance, by "imp". -/
def catThenImp : List Char → Bool
  | [] => false
  | c :: cs =>
    (List.isPrefixOf ['c', 'a', 't'] (c :: cs) && isSubChars ['i', 'm', 'p'] cs.tail.tail)
      || catThenImp cs

def catImpP (c : String) : Bool := catThenImp (lowerStr c).data

def orgP (c : String) : Bool := searchCI "org" c
def overallP (c : String) : Bool := searchCI "overall" c

/-- Scanner for `re.search("brand.*strength", c, re.I)` (load_brand_strength). -/
def brandThenStrength : List Char → Bool
  | [] => false
  | c :: cs =>
    (List.isPrefixOf "brand".data (c :: cs)
        && isSubChars "strength".data ((c :: cs).drop 5))
      || brandThenStrength cs

def brandStrengthP (c : String) : Bool := brandThenStrength (lowerStr c).data

/-- `load_brand_strength` finds its category column by substring search
(`re.search("category", ...)`), unlike `load_data`'s full match. -/
def bsCategoryP (c : String) : Bool := searchCI "category" c

-- ---------------------------------------------------------------------------
-- Value normalization (app.py lines 32-61)
-- ---------------------------------------------------------------------------

/-- Category cleaning: strip, collapse "nan"/"NaN"/""/"None" to missing,
title-case (app.py lines 33-38). -/
def normCategory (s : String) : Option String :=
  let t := trimStr s
  if t == "nan" || t == "NaN" || t == "" || t == "None" then none else some (titleStr t)

/-- Platform normalization (app.py lines 41-53): strip, lowercase, alias
"instagram"/"insta-mart" to "instamart", then map the three canonical
lowercase names to display form; anything else becomes missing (NaN). -/
def normPlatform (s : String) : Option String :=
  let t0 := lowerStr (trimStr s)
  let t := if t0 == "instagram" || t0 == "insta-mart" then "instamart" else t0
  if t == "blinkit" then some "Blinkit"
  else if t == "instamart" then some "Instamart"
  else if t == "zepto" then some "Zepto"
  else none

/-- Keyword-type cleaning (app.py lines 56-61): strip, lowercase, alias
"branded" to "brand", title-case. -/
def normKeywordType (s : String) : String :=
  let t := lowerStr (trimStr s)
  titleStr (if t == "branded" then "brand" else t)

-- ---------------------------------------------------------------------------
-- Numeric parsing (app.py lines 72-78 and 365)
-- ---------------------------------------------------------------------------

def digitsVal (cs : List Char) : Nat := cs.foldl (fun a c => a * 10 + (c.toNat - 48)) 0

/-- Decimal-numeral parser standing in for `pd.to_numeric(..,
errors="coerce")` on the string forms this data uses: optional sign, digits,
optional fractional part; anything else (empty string, "N/A", ...) is
unparseable and yields `none` (NaN). -/
def parseDecimal? (s : String) : Option ℚ :=
  let cs := (trimStr s).data
  let signed : Bool × List Char :=
    match cs with
    | '-' :: rest => (true, rest)
    | '+' :: rest => (false, rest)
    | _ => (false, cs)
  let ip := signed.2.takeWhile Char.isDigit
  let rest := signed.2.dropWhile Char.isDigit
  let mag : Option ℚ :=
    match rest with
    | [] => if ip.isEmpty then none else some ((digitsVal ip : ℚ))
    | '.' :: fp =>
      if fp.all Char.isDigit && !(ip.isEmpty && fp.isEmpty) then
        some ((digitsVal ip : ℚ) + (digitsVal fp : ℚ) / ((10 : ℚ) ^ fp.length))
      else none
    | _ => none
  mag.map (fun v => if signed.1 then -v else v)

/-- `x.astype(str).str.replace("%", "", regex=False)`: remove every percent
sign (not only a trailing one). -/
def stripPct (s : String) : String := ⟨s.data.filter (fun c => c != '%')⟩

/-- Metric-cell conversion (app.py lines 73-78): drop all "%" characters,
coerce to a number, fill unparseable values with 0. -/
def parseMetric (s : String) : ℚ := (parseDecimal? (stripPct s)).getD 0

-- ---------------------------------------------------------------------------
-- Month parsing (app.py lines 81-94)
-- ---------------------------------------------------------------------------

def month_map : List (String × Nat) :=
  [("jan", 1), ("feb", 2), ("mar", 3), ("apr", 4), ("may", 5), ("jun", 6),
   ("jul", 7), ("aug", 8), ("sep", 9), ("oct", 10), ("nov", 11), ("dec", 12)]

/-- `parse_month` (app.py lines 86-91): lowercase the field and return the
value of the first `month_map` key (in jan→dec order) occurring in it as a
substring; `None` when none occurs. -/
def parse_month (x : String) : Option Nat :=
  (month_map.find? (fun kv => isSubChars kv.1.data (lowerStr x).data)).map (fun kv => kv.2)

/-- The display label for an ordinal: the `{v: k.title()}` mapping of line 94. -/
def monthNameOf (n : Nat) : String :=
  ((month_map.find? (fun kv => kv.2 == n)).map (fun kv => titleStr kv.1)).getD ""

-- ---------------------------------------------------------------------------
-- Sheets and the canonical marketing table (load_data, app.py lines 19-105)
-- ---------------------------------------------------------------------------

/-- One spreadsheet row: column name ↦ cell text (cells as the strings
`astype(str)` produces; a missing cell reads as `""`). -/
abbrev Raw := List (String × String)

def getCell (r : Raw) (c : String) : String :=
  ((r.find? (fun p => p.1 == c)).map (fun p => p.2)).getD ""

/-- A spreadsheet: headers (after the `df.columns.str.strip()` of line 22)
and data rows. -/
structure Sheet where
  headers : List String
  rows : List Raw
deriving DecidableEq

/-- One row of the canonical marketing table.  Fields that come from an
optional column are `Option`-valued: `none` covers both an unresolved column
and a missing (NaN) cell value, which no downstream filter distinguishes.
`raw` keeps the source row for provenance. -/
structure MRow where
  monthNum : Nat
  monthName : String
  region : Option String
  category : Option String
  keywordType : Option String
  keyword : Option String
  platform : Option String
  vals : List (String × ℚ)
  raw : Raw
deriving DecidableEq

/-- The metric name ↦ resolved column table of app.py lines 64-70. -/
def metricColsOf (s : Sheet) : List (String × Option String) :=
  [("Volume Share", s.headers.find? volumeShareP),
   ("Ad SOV", s.headers.find? adP),
   ("Org. SOV", s.headers.find? orgP),
   ("Overall SOV", s.headers.find? overallP),
   ("Cat. Imp. Share", s.headers.find? catImpP)]

/-- The numeric metric cells of one row: only resolved metric columns are
converted (the `if col in df.columns` guard of line 74). -/
def metricPairs (s : Sheet) (raw : Raw) : List (String × ℚ) :=
  (metricColsOf s).filterMap (fun p => p.2.map (fun c => (p.1, parseMetric (getCell raw c))))

/-- Build one canonical row from a raw row, given the resolved month and
platform columns; `none` when `parse_month` fails (the row `dropna` drops,
line 95). -/
def buildRow (s : Sheet) (mc pc : String) (raw : Raw) : Option MRow :=
  match parse_month (getCell raw mc) with
  | none => none
  | some n =>
    some { monthNum := n
           monthName := monthNameOf n
           region := (s.headers.find? regionP).map (getCell raw)
           category := ((s.headers.find? categoryP).map (getCell raw)).bind normCategory
           keywordType := (s.headers.find? keywordTypeP).map (fun c => normKeywordType (getCell raw c))
           keyword := (s.headers.find? keywordP).map (getCell raw)
           platform := normPlatform (getCell raw pc)
           vals := metricPairs s raw
           raw := raw }

/-- The `str.fullmatch("all", case=False)` test of line 99 on the row's
keyword cell. -/
def isAllKeyword (r : MRow) : Bool :=
  match r.keyword with
  | some kw => lowerStr kw == "all"
  | none => false

/-- The platform allow-list test of line 103. -/
def platformOK (r : MRow) : Bool :=
  decide (r.platform = some "Blinkit" ∨ r.platform = some "Instamart" ∨ r.platform = some "Zepto")

/-- The canonical marketing table plus the resolved column names, mirroring
the tuple `load_data` returns. -/
structure MTable where
  rows : List MRow
  region_col : Option String
  category_col : Option String
  platform_col : Option String
  keyword_type_col : Option String
  keyword_col : Option String
  metricCols : List (String × Option String)
deriving DecidableEq

/-- The successful body of `load_data` once the month and platform columns
are resolved: build rows (dropping unparseable months, line 95), drop
"all"-keyword rows when a keyword column resolved (lines 98-99), keep months
from April on (line 100), keep only the three platforms (line 103). -/
def mkTable (s : Sheet) (mc pc : String) : MTable :=
  let rows1 := s.rows.filterMap (buildRow s mc pc)
  let rows2 :=
    match s.headers.find? keywordP with
    | some _ => rows1.filter (fun r => !isAllKeyword r)
    | none => rows1
  let rows3 := rows2.filter (fun r => 4 ≤ r.monthNum)
  let rows4 := rows3.filter platformOK
  { rows := rows4
    region_col := s.headers.find? regionP
    category_col := s.headers.find? categoryP
    platform_col := some pc
    keyword_type_col := s.headers.find? keywordTypeP
    keyword_col := s.headers.find? keywordP
    metricCols := metricColsOf s }

/-- `load_data` (app.py lines 19-105).  An unresolved month column makes
`df[month_col]` on line 93 raise `KeyError`, and an unresolved platform
column makes `df[platform_col]` on line 103 raise `KeyError`; both surface as
`error`.  Every other unresolved column is skipped by an `if` guard. -/
def load_data (s : Sheet) : Except Unit MTable :=
  match s.headers.find? monthP, s.headers.find? platformP with
  | some mc, some pc => .ok (mkTable s mc pc)
  | _, _ => .error ()

/-- The rows of the canonical table, `[]` when loading raised. -/
def loadRows (s : Sheet) : List MRow :=
  match load_data s with
  | .ok t => t.rows
  | .error _ => []

def loadOk (s : Sheet) : Bool :=
  match load_data s with
  | .ok _ => true
  | .error _ => false

/-- Metric lookup on a canonical row (the column read `data_kw[vol_col]`). -/
def metricOf (r : MRow) (m : String) : ℚ :=
  ((r.vals.find? (fun p => p.1 == m)).map (fun p => p.2)).getD 0

-- ---------------------------------------------------------------------------
-- Dataset filters (app.py lines 149-159 and 284-293)
-- ---------------------------------------------------------------------------

/-- `row-value.isin(selection)`, with a missing value never matching (pandas
`isin` is false on NaN). -/
def optMemB (x : Option String) (l : List String) : Bool :=
  match x with
  | some v => l.contains v
  | none => false

/-- Tab 1 filter pass (app.py lines 149-159): each multiselect is applied
only when non-empty (Python truthiness of the list), the passes composing by
conjunction. -/
def filtered (rows : List MRow) (regionF categoryF platformF : List String) : List MRow :=
  let f1 := if regionF.isEmpty then rows else rows.filter (fun r => optMemB r.region regionF)
  let f2 := if categoryF.isEmpty then f1 else f1.filter (fun r => optMemB r.category categoryF)
  if platformF.isEmpty then f2 else f2.filter (fun r => optMemB r.platform platformF)

/-- Tab 2 filter pass (app.py lines 284-293): region, category, keyword type,
keyword, each optional. -/
def filtered_t2 (rows : List MRow) (regionF categoryF keywordTypeF keywordF : List String) :
    List MRow :=
  let f1 := if regionF.isEmpty then rows else rows.filter (fun r => optMemB r.region regionF)
  let f2 := if categoryF.isEmpty then f1 else f1.filter (fun r => optMemB r.category categoryF)
  let f3 :=
    if keywordTypeF.isEmpty then f2 else f2.filter (fun r => optMemB r.keywordType keywordTypeF)
  if keywordF.isEmpty then f3 else f3.filter (fun r => optMemB r.keyword keywordF)

-- ---------------------------------------------------------------------------
-- Benchmark (app.py lines 172-173)
-- ---------------------------------------------------------------------------

def listMean (l : List ℚ) : ℚ := l.sum / (l.length : ℚ)

/-- `MonthNum.between(4, 6)` (inclusive on both ends, the pandas default). -/
def inQ1 (r : MRow) : Bool := 4 ≤ r.monthNum && r.monthNum ≤ 6

/-- The Q1 benchmark (app.py lines 172-173): mean of the metric over the
April-June rows, 0 when that restriction is empty. -/
def benchmark (rows : List MRow) (m : String) : ℚ :=
  let q1 := rows.filter inQ1
  if q1.isEmpty then 0 else listMean (q1.map (fun r => metricOf r m))

-- ---------------------------------------------------------------------------
-- Series aggregation (app.py lines 176-179 and 406-409)
-- ---------------------------------------------------------------------------

/-- One input row of a series aggregation: month label and ordinal, the
series dimension (NaN-able: pandas `groupby` drops rows whose key is NaN),
and the metric value. -/
structure SRow where
  monthName : String
  monthNum : Nat
  dim : Option String
  value : ℚ
deriving DecidableEq

/-- One output point: `(MonthName, MonthNum, series-key, mean value)`. -/
structure TrendEntry where
  monthName : String
  monthNum : Nat
  dim : String
  value : ℚ
deriving DecidableEq

/-- The group key of a row, `none` when the series dimension is missing. -/
def sKey (r : SRow) : Option (String × Nat × String) :=
  r.dim.map (fun d => (r.monthName, r.monthNum, d))

def groupOf (rows : List SRow) (k : String × Nat × String) : List SRow :=
  rows.filter (fun r => sKey r == some k)

def entryOf (rows : List SRow) (k : String × Nat × String) : TrendEntry :=
  { monthName := k.1, monthNum := k.2.1, dim := k.2.2
    value := listMean ((groupOf rows k).map SRow.value) }

/-- The final `.sort_values("MonthNum")` order. -/
def trendLE (a b : TrendEntry) : Prop := a.monthNum ≤ b.monthNum

instance : DecidableRel trendLE := fun a b => Nat.decLe a.monthNum b.monthNum

instance : IsTotal TrendEntry trendLE := ⟨fun a b => Nat.le_total a.monthNum b.monthNum⟩

instance : IsTrans TrendEntry trendLE := ⟨fun _ _ _ h h2 => Nat.le_trans h h2⟩

/-- `groupby([...]).mean().reset_index().sort_values("MonthNum")`: one entry
per distinct key carrying the group mean, output ordered by month ordinal. -/
def seriesAgg (rows : List SRow) : List TrendEntry :=
  List.insertionSort trendLE (((rows.filterMap sKey).dedup).map (entryOf rows))

/-- Tab 1 series input: the region is the series dimension, the chosen metric
the value (app.py line 177). -/
def toSRow (m : String) (r : MRow) : SRow :=
  { monthName := r.monthName, monthNum := r.monthNum, dim := r.region, value := metricOf r m }

/-- `trend` (app.py lines 176-179). -/
def trend (rows : List MRow) (m : String) : List TrendEntry :=
  seriesAgg (rows.map (toSRow m))

-- ---------------------------------------------------------------------------
-- Brand strength (load_brand_strength, app.py lines 332-367, and tab 3)
-- ---------------------------------------------------------------------------

/-- One row of the brand-strength table.  The platform is normalized but
never filtered against an allow-list, so unmapped values stay as `none`. -/
structure BSRow where
  monthNum : Nat
  monthName : String
  region : Option String
  category : Option String
  platform : Option String
  strength : ℚ
  raw : Raw
deriving DecidableEq

structure BSTable where
  rows : List BSRow
  region_col : Option String
  category_col : Option String
  platform_col : Option String
deriving DecidableEq

def buildBSRow (s : Sheet) (mc pc bc : String) (raw : Raw) : Option BSRow :=
  (parse_month (getCell raw mc)).map (fun n =>
    { monthNum := n
      monthName := monthNameOf n
      region := (s.headers.find? regionP).map (getCell raw)
      category := (s.headers.find? bsCategoryP).map (getCell raw)
      platform := normPlatform (getCell raw pc)
      strength := parseMetric (getCell raw bc)
      raw := raw })

/-- The successful body of `load_brand_strength`: normalize platforms, parse
months, drop unparseable months, keep ordinals ≥ 4, convert the strength
column.  No platform allow-list and no upper month bound. -/
def mkBSTable (s : Sheet) (pc mc bc : String) : BSTable :=
  { rows := (s.rows.filterMap (buildBSRow s mc pc bc)).filter (fun r => 4 ≤ r.monthNum)
    region_col := s.headers.find? regionP
    category_col := s.headers.find? bsCategoryP
    platform_col := some pc }

/-- `load_brand_strength` (app.py lines 332-367).  The platform column (line
344), month column (line 359) and brand-strength column (line 365) are
dereferenced unconditionally, so an unresolved one raises `KeyError`. -/
def load_brand_strength (s : Sheet) : Except Unit BSTable :=
  match s.headers.find? platformP, s.headers.find? monthP, s.headers.find? brandStrengthP with
  | some pc, some mc, some bc => .ok (mkBSTable s pc mc bc)
  | _, _, _ => .error ()

def loadBSRows (s : Sheet) : List BSRow :=
  match load_brand_strength s with
  | .ok t => t.rows
  | .error _ => []

/-- The platform names tab 3 iterates (app.py line 399). -/
def tab3Platforms : List String := ["Blinkit", "Instamart", "Zepto"]

/-- The per-platform selection `filtered_bs[filtered_bs[platform_bs] == platform]`
(app.py line 401). -/
def tab3Select (rows : List BSRow) (p : String) : List BSRow :=
  rows.filter (fun r => decide (r.platform = some p))

def bsToSRow (r : BSRow) : SRow :=
  { monthName := r.monthName, monthNum := r.monthNum, dim := r.region, value := r.strength }

/-- `trend_bs` (app.py lines 406-409): same grouping as tab 1, with the
brand-strength value. -/
def trend_bs (rows : List BSRow) : List TrendEntry :=
  seriesAgg (rows.map bsToSRow)

/-- The group of canonical rows a trend entry describes: same month label,
same ordinal, same region. -/
def mgroup (rows : List MRow) (e : TrendEntry) : List MRow :=
  rows.filter (fun r =>
    decide (r.monthName = e.monthName ∧ r.monthNum = e.monthNum ∧ r.region = some e.dim))

/-- The metric values of that group. -/
def mgroupVals (rows : List MRow) (m : String) (e : TrendEntry) : List ℚ :=
  (mgroup rows e).map (fun r => metricOf r m)

/-- The group of brand-strength rows a trend entry describes. -/
def bsgroup (rows : List BSRow) (e : TrendEntry) : List BSRow :=
  rows.filter (fun r =>
    decide (r.monthName = e.monthName ∧ r.monthNum = e.monthNum ∧ r.region = some e.dim))

/-- The strength values of that group. -/
def bsgroupVals (rows : List BSRow) (e : TrendEntry) : List ℚ :=
  (bsgroup rows e).map BSRow.strength

/-- The metric parser as the specification words it, for comparison with the
code's `parseMetric`: strip a single trailing "%" character (only), then
parse, defaulting to 0. -/
def claimMetricParse (s : String) : ℚ :=
  let t := if s.data.getLast? == some '%' then ⟨s.data.dropLast⟩ else s
  (parseDecimal? t).getD 0

-- ---------------------------------------------------------------------------
-- Concrete inputs used as test vectors and counterexamples
-- ---------------------------------------------------------------------------

/-- A raw marketing row with an October month. -/
def octRaw : Raw := [("Month", "Oct-2024"), ("Platform", "blinkit"), ("Keyword", "x")]

/-- A marketing sheet whose one row has an October month.  Every column of
the canonical pipeline resolves except the metric columns. -/
def octSheet : Sheet :=
  { headers := ["Month", "Platform", "Keyword"]
    rows := [octRaw] }

/-- The canonical row `load_data` keeps from `octSheet`: ordinal 10. -/
def octRow : MRow :=
  { monthNum := 10
    monthName := "Oct"
    region := none
    category := none
    keywordType := none
    keyword := some "x"
    platform := some "Blinkit"
    vals := []
    raw := octRaw }

/-- A marketing sheet with no column matching the keyword rule (month and
platform resolve). -/
def noKwSheet : Sheet :=
  { headers := ["Month", "Platform"]
    rows := [[("Month", "Apr-2024"), ("Platform", "zepto")]] }

/-- A marketing sheet with no column matching the month rule. -/
def noMonthSheet : Sheet :=
  { headers := ["Platform", "Keyword"]
    rows := [[("Platform", "zepto"), ("Keyword", "x")]] }

/-- A marketing sheet with one parseable-month row and one "xyz" month row. -/
def dropSheet : Sheet :=
  { headers := ["Month", "Platform", "Keyword"]
    rows := [[("Month", "April-2024"), ("Platform", "blinkit"), ("Keyword", "x")],
             [("Month", "xyz"), ("Platform", "blinkit"), ("Keyword", "x")]] }

/-- A raw marketing row whose Volume Share cell reads "150%". -/
def pctRaw : Raw :=
  [("Month", "Apr-2024"), ("Platform", "zepto"), ("Keyword", "x"), ("Volume Share", "150%")]

/-- A marketing sheet whose Volume Share cell reads "150%". -/
def pctSheet : Sheet :=
  { headers := ["Month", "Platform", "Keyword", "Volume Share"]
    rows := [pctRaw] }

/-- The canonical row `load_data` keeps from `pctSheet`: metric value 150. -/
def pctRow : MRow :=
  { monthNum := 4
    monthName := "Apr"
    region := none
    category := none
    keywordType := none
    keyword := some "x"
    platform := some "Zepto"
    vals := [("Volume Share", 150)]
    raw := pctRaw }

/-- The raw row whose keyword cell is "ALL". -/
def allRaw : Raw := [("Month", "Apr-2024"), ("Platform", "zepto"), ("Keyword", "ALL")]

/-- A marketing sheet containing an aggregate-sentinel "ALL" keyword row. -/
def allSheet : Sheet :=
  { headers := ["Month", "Platform", "Keyword"]
    rows := [[("Month", "Apr-2024"), ("Platform", "zepto"), ("Keyword", "x")], allRaw] }

/-- A marketing sheet whose keyword merely contains "all" as a substring. -/
def ballSheet : Sheet :=
  { headers := ["Month", "Platform", "Keyword"]
    rows := [[("Month", "Apr-2024"), ("Platform", "zepto"), ("Keyword", "ball")]] }

/-- A hand-built canonical row for aggregation tests. -/
def mrow (n : Nat) (reg : String) (v : ℚ) : MRow :=
  { monthNum := n
    monthName := monthNameOf n
    region := some reg
    category := some "Snacks"
    keywordType := some "Brand"
    keyword := some "kw"
    platform := some "Blinkit"
    vals := [("Volume Share", v)]
    raw := [] }

/-- Rows with metric values 10, 20, 30 at ordinals 4, 5, 6. -/
def c4rowsIn : List MRow := [mrow 4 "North" 10, mrow 5 "North" 20, mrow 6 "North" 30]

/-- One row with metric value 99 at ordinal 7. -/
def c4rowsOut : List MRow := [mrow 7 "North" 99]

/-- Duplicate rows for one (month, region) group, with values 10 and 20. -/
def dupRows : List MRow := [mrow 4 "North" 10, mrow 4 "North" 20]

/-- The raw row of the brand-strength sheet: an unmapped platform ("swiggy")
and a month past September ("Nov-2024"). -/
def bsRaw : Raw :=
  [("Region", "North"), ("Category", "Snacks"), ("Platform", "swiggy"),
   ("Month", "Nov-2024"), ("Brand Strength", "55%")]

/-- A brand-strength sheet exercising the missing allow-list and missing
upper month bound. -/
def bsSheet : Sheet := { headers := ["Region", "Category", "Platform", "Month", "Brand Strength"]
                         rows := [bsRaw] }

/-- The brand-strength row `load_brand_strength` keeps from `bsSheet`. -/
def bsRowNov : BSRow :=
  { monthNum := 11
    monthName := "Nov"
    region := some "North"
    category := some "Snacks"
    platform := none
    strength := 55
    raw := bsRaw }

-- ---------------------------------------------------------------------------
-- Helper lemmas
-- ---------------------------------------------------------------------------

/-- Membership through one optional filter pass. -/
lemma mem_condFilter (rows : List MRow) (g : MRow → Bool) (l : List String) (r : MRow) :
    r ∈ (if l.isEmpty then rows else rows.filter g) ↔ r ∈ rows ∧ (l = [] ∨ g r = true) := by
  cases l with
  | nil => simp
  | cons x xs => simp [List.mem_filter]

lemma parse_month_bounds (x : String) (n : Nat) (h : parse_month x = some n) :
    1 ≤ n ∧ n ≤ 12 := by
  unfold parse_month at h
  cases e : month_map.find? (fun kv => isSubChars kv.1.data (lowerStr x).data) with
  | none => rw [e] at h; cases h
  | some kv =>
    rw [e] at h
    injection h with h2
    have hm : kv ∈ month_map := List.mem_of_find?_eq_some e
    subst h2
    fin_cases hm <;> decide

lemma load_data_inv (s : Sheet) (t : MTable) (h : load_data s = .ok t) :
    ∃ mc pc, s.headers.find? monthP = some mc ∧ s.headers.find? platformP = some pc ∧
      t = mkTable s mc pc := by
  unfold load_data at h
  split at h
  · rename_i mc pc h1 h2
    exact ⟨mc, pc, h1, h2, by injection h with h3; exact h3.symm⟩
  · cases h

lemma buildRow_inv (s : Sheet) (mc pc : String) (raw : Raw) (r : MRow)
    (h : buildRow s mc pc raw = some r) :
    parse_month (getCell raw mc) = some r.monthNum ∧
    r.monthName = monthNameOf r.monthNum ∧
    r.region = (s.headers.find? regionP).map (getCell raw) ∧
    r.keyword = (s.headers.find? keywordP).map (getCell raw) ∧
    r.platform = normPlatform (getCell raw pc) ∧
    r.vals = metricPairs s raw ∧
    r.raw = raw := by
  unfold buildRow at h
  cases e : parse_month (getCell raw mc) with
  | none => rw [e] at h; cases h
  | some n =>
    rw [e] at h
    injection h with h2
    subst h2
    exact ⟨rfl, rfl, rfl, rfl, rfl, rfl, rfl⟩

/-- Every row of the canonical table comes from a source row through
`buildRow` and passed the keyword, month-window and platform filters. -/
lemma mem_mkTable (s : Sheet) (mc pc : String) (r : MRow) (h : r ∈ (mkTable s mc pc).rows) :
    (∃ raw ∈ s.rows, buildRow s mc pc raw = some r) ∧
      (s.headers.find? keywordP ≠ none → isAllKeyword r = false) ∧
      4 ≤ r.monthNum ∧ platformOK r = true := by
  simp only [mkTable, List.mem_filter] at h
  obtain ⟨⟨h2, h3⟩, h4⟩ := h
  cases e : s.headers.find? keywordP with
  | none =>
    rw [e] at h2
    obtain ⟨raw, hraw, hb⟩ := List.mem_filterMap.mp h2
    exact ⟨⟨raw, hraw, hb⟩, fun hk => absurd rfl hk, by simpa using h3, h4⟩
  | some kc =>
    rw [e] at h2
    obtain ⟨h5, h6⟩ := List.mem_filter.mp h2
    obtain ⟨raw, hraw, hb⟩ := List.mem_filterMap.mp h5
    exact ⟨⟨raw, hraw, hb⟩, fun _ => by simpa using h6, by simpa using h3, h4⟩

/-- Dropping one list element through `filterMap` and then losing another
element to `filter` makes the composite strictly shorter than the input. -/
lemma filterMap_filter_length_lt {α β : Type} (f : α → Option β) (p : β → Bool) :
    ∀ (l : List α) (a : α), a ∈ l → (∀ b, f a = some b → p b = false) →
      ((l.filterMap f).filter p).length < l.length := by
  intro l
  induction l with
  | nil => intro a ha _; cases ha
  | cons x xs ih =>
    intro a ha hfa
    have hbase : ((xs.filterMap f).filter p).length ≤ xs.length :=
      Nat.le_trans (List.length_filter_le _ _) (List.length_filterMap_le _ _)
    rcases List.mem_cons.mp ha with rfl | hmem
    · cases hfx : f a with
      | none =>
        rw [List.filterMap_cons_none hfx]
        exact Nat.lt_succ_of_le hbase
      | some b =>
        rw [List.filterMap_cons_some hfx, List.filter_cons_of_neg]
        · exact Nat.lt_succ_of_le hbase
        · simp [hfa b hfx]
    · have hlt := ih a hmem hfa
      cases hfx : f x with
      | none =>
        rw [List.filterMap_cons_none hfx]
        exact Nat.lt_succ_of_lt hlt
      | some b =>
        rw [List.filterMap_cons_some hfx]
        cases hpb : p b with
        | true =>
          rw [List.filter_cons_of_pos]
          · exact Nat.succ_lt_succ hlt
          · exact hpb
        | false =>
          rw [List.filter_cons_of_neg]
          · exact Nat.lt_succ_of_lt hlt
          · simp [hpb]

lemma seriesAgg_sorted (rows : List SRow) : List.Sorted trendLE (seriesAgg rows) :=
  List.sorted_insertionSort trendLE _

lemma mem_seriesAgg (rows : List SRow) (e : TrendEntry) :
    e ∈ seriesAgg rows ↔ ∃ k ∈ (rows.filterMap sKey).dedup, e = entryOf rows k := by
  unfold seriesAgg
  rw [(List.perm_insertionSort trendLE _).mem_iff]
  simp only [List.mem_map]
  constructor
  · rintro ⟨k, hk, rfl⟩; exact ⟨k, hk, rfl⟩
  · rintro ⟨k, hk, rfl⟩; exact ⟨k, hk, rfl⟩

lemma seriesAgg_value (rows : List SRow) (e : TrendEntry) (he : e ∈ seriesAgg rows) :
    e.value = listMean ((groupOf rows (e.monthName, e.monthNum, e.dim)).map SRow.value) := by
  obtain ⟨k, hk, rfl⟩ := (mem_seriesAgg rows e).mp he
  rfl

lemma seriesAgg_covers (rows : List SRow) (r : SRow) (hr : r ∈ rows)
    (k : String × Nat × String) (hk : sKey r = some k) : entryOf rows k ∈ seriesAgg rows :=
  (mem_seriesAgg rows _).mpr
    ⟨k, List.mem_dedup.mpr (List.mem_filterMap.mpr ⟨r, hr, hk⟩), rfl⟩

lemma sKey_toSRow_beq (m : String) (r : MRow) (k : String × Nat × String) :
    (sKey (toSRow m r) == some k) =
      decide (r.monthName = k.1 ∧ r.monthNum = k.2.1 ∧ r.region = some k.2.2) := by
  apply Bool.eq_iff_iff.mpr
  cases hr : r.region with
  | none => simp [sKey, toSRow, hr]
  | some d =>
    simp [sKey, toSRow, hr, Prod.ext_iff]

lemma sKey_bsToSRow_beq (r : BSRow) (k : String × Nat × String) :
    (sKey (bsToSRow r) == some k) =
      decide (r.monthName = k.1 ∧ r.monthNum = k.2.1 ∧ r.region = some k.2.2) := by
  apply Bool.eq_iff_iff.mpr
  cases hr : r.region with
  | none => simp [sKey, bsToSRow, hr]
  | some d =>
    simp [sKey, bsToSRow, hr, Prod.ext_iff]

lemma trend_group_eq (rows : List MRow) (m : String) (e : TrendEntry) :
    (groupOf (rows.map (toSRow m)) (e.monthName, e.monthNum, e.dim)).map SRow.value =
      mgroupVals rows m e := by
  unfold groupOf mgroupVals
  rw [List.filter_map, List.map_map]
  congr 1
  apply List.filter_congr
  intro r _
  exact sKey_toSRow_beq m r _

lemma trend_bs_group_eq (rows : List BSRow) (e : TrendEntry) :
    (groupOf (rows.map bsToSRow) (e.monthName, e.monthNum, e.dim)).map SRow.value =
      bsgroupVals rows e := by
  unfold groupOf bsgroupVals
  rw [List.filter_map, List.map_map]
  congr 1
  apply List.filter_congr
  intro r _
  exact sKey_bsToSRow_beq r _

-- ---------------------------------------------------------------------------
-- C3: series aggregation
-- ---------------------------------------------------------------------------

/-- C3: both series aggregations (`trend`, app.py lines 176-179, and
`trend_bs`, lines 406-409) group rows by (month label, month ordinal, region),
give each entry the arithmetic mean of the target metric over its group — so
duplicate rows of one group contribute through their mean — and emit the
entries sorted by ascending month ordinal; every row with a present region
is covered by some entry. -/
theorem series_aggregation_spec :
    (∀ (rows : List MRow) (m : String),
        List.Sorted trendLE (trend rows m) ∧
        (∀ e ∈ trend rows m, e.value = listMean (mgroupVals rows m e)) ∧
        (∀ r ∈ rows, ∀ d, r.region = some d →
          ∃ e ∈ trend rows m, e.monthName = r.monthName ∧ e.monthNum = r.monthNum ∧
            e.dim = d)) ∧
    (∀ rows : List BSRow,
        List.Sorted trendLE (trend_bs rows) ∧
        (∀ e ∈ trend_bs rows, e.value = listMean (bsgroupVals rows e)) ∧
        (∀ r ∈ rows, ∀ d, r.region = some d →
          ∃ e ∈ trend_bs rows, e.monthName = r.monthName ∧ e.monthNum = r.monthNum ∧
            e.dim = d)) := by
  constructor
  · intro rows m
    refine ⟨seriesAgg_sorted _, ?_, ?_⟩
    · intro e he
      rw [seriesAgg_value _ _ he, trend_group_eq]
    · intro r hr d hd
      have hk : sKey (toSRow m r) = some (r.monthName, r.monthNum, d) := by
        simp [sKey, toSRow, hd]
      exact ⟨entryOf _ _, seriesAgg_covers _ _ (List.mem_map_of_mem _ hr) _ hk, rfl, rfl, rfl⟩
  · intro rows
    refine ⟨seriesAgg_sorted _, ?_, ?_⟩
    · intro e he
      rw [seriesAgg_value _ _ he, trend_bs_group_eq]
    · intro r hr d hd
      have hk : sKey (bsToSRow r) = some (r.monthName, r.monthNum, d) := by
        simp [sKey, bsToSRow, hd]
      exact ⟨entryOf _ _, seriesAgg_covers _ _ (List.mem_map_of_mem _ hr) _ hk, rfl, rfl, rfl⟩

/-- C3 witness: two duplicate (Apr, North) rows with Volume Share 10 and 20
aggregate to their mean 15. -/
theorem series_aggregation_spec_witness :
    (⟨"Apr", 4, "North", 15⟩ : TrendEntry).value =
      listMean (mgroupVals dupRows "Volume Share" ⟨"Apr", 4, "North", 15⟩) :=
  (series_aggregation_spec.1 dupRows "Volume Share").2.1 _ (by decide)

-- ---------------------------------------------------------------------------
-- C4: benchmark
-- ---------------------------------------------------------------------------

/-- C4: the benchmark (app.py lines 172-173) is the mean of the metric over
exactly the rows with ordinal in [4,6]: appending rows outside that window
leaves it unchanged, it is 0 when no row lies in the window, and the
spec's test vector ([10,20,30] at ordinals 4,5,6 with 99 at ordinal 7)
gives 20. -/
theorem benchmark_q1_window :
    (∀ (rows extra : List MRow) (m : String),
        (∀ r ∈ extra, r.monthNum < 4 ∨ 6 < r.monthNum) →
          benchmark (rows ++ extra) m = benchmark rows m) ∧
    (∀ (rows : List MRow) (m : String),
        (∀ r ∈ rows, r.monthNum < 4 ∨ 6 < r.monthNum) → benchmark rows m = 0) ∧
    benchmark (c4rowsIn ++ c4rowsOut) "Volume Share" = 20 := by
  refine ⟨?_, ?_, by decide⟩
  · intro rows extra m h
    have he : extra.filter inQ1 = [] := by
      apply List.filter_eq_nil_iff.mpr
      intro r hr
      have := h r hr
      simp only [inQ1, Bool.and_eq_true, decide_eq_true_eq, not_and]
      omega
    simp [benchmark, List.filter_append, he]
  · intro rows m h
    have he : rows.filter inQ1 = [] := by
      apply List.filter_eq_nil_iff.mpr
      intro r hr
      have := h r hr
      simp only [inQ1, Bool.and_eq_true, decide_eq_true_eq, not_and]
      omega
    simp [benchmark, he]

/-- C4 witness: the ordinal-7 row with value 99 does not move the benchmark
of the ordinal-4..6 rows. -/
theorem benchmark_q1_window_witness :
    benchmark (c4rowsIn ++ c4rowsOut) "Volume Share" = benchmark c4rowsIn "Volume Share" :=
  benchmark_q1_window.1 c4rowsIn c4rowsOut "Volume Share" (by decide)

-- ---------------------------------------------------------------------------
-- C5: month parsing
-- ---------------------------------------------------------------------------

/-- C5: `parse_month` (app.py lines 86-91) searches the lowered month text
for the twelve three-letter abbreviations in jan→dec order and returns the
ordinal of the first that occurs as a substring ("decjun" gives jun's 6, not
dec's 12, because the search order — not the text position — decides);
"April-2024" gives ordinal 4 with display label "Apr"; text containing no
abbreviation parses to `none` and its row is dropped from the canonical
table. -/
theorem parse_month_spec :
    parse_month "April-2024" = some 4 ∧
    monthNameOf 4 = "Apr" ∧
    parse_month "decjun" = some 6 ∧
    (∀ x n, parse_month x = some n →
      ∃ kv ∈ month_map, kv.2 = n ∧ isSubChars kv.1.data (lowerStr x).data = true) ∧
    (∀ x, (∀ kv ∈ month_map, isSubChars kv.1.data (lowerStr x).data = false) →
      parse_month x = none) ∧
    (loadRows dropSheet).map MRow.monthNum = [4] := by
  refine ⟨by decide, by decide, by decide, ?_, ?_, by decide⟩
  · intro x n h
    unfold parse_month at h
    cases e : month_map.find? (fun kv => isSubChars kv.1.data (lowerStr x).data) with
    | none => rw [e] at h; cases h
    | some kv =>
      rw [e] at h
      injection h with h2
      have hp := List.find?_some e
      exact ⟨kv, List.mem_of_find?_eq_some e, h2, hp⟩
  · intro x h
    unfold parse_month
    rw [List.find?_eq_none.mpr (fun kv hkv => by simp [h kv hkv])]
    rfl

/-- C5 witness: the jan→dec search applied at "April-2024" yields the entry
("apr", 4) of the month table, found as a substring. -/
theorem parse_month_spec_witness :
    ∃ kv ∈ month_map, kv.2 = 4 ∧ isSubChars kv.1.data (lowerStr "April-2024").data = true :=
  parse_month_spec.2.2.2.1 "April-2024" 4 (by decide)

-- ---------------------------------------------------------------------------
-- C6: metric value parsing
-- ---------------------------------------------------------------------------

/-- C6 counterexample: the code removes every "%" character
(`str.replace("%", "", regex=False)`), not only a trailing one, so on "4%5"
the code yields 45.0 while the claimed strip-trailing-then-parse procedure
yields 0. -/
theorem metric_parse_trailing_only_false :
    parseMetric "4%5" = 45 ∧ claimMetricParse "4%5" = 0 ∧
      parseMetric "4%5" ≠ claimMetricParse "4%5" := by decide

/-- C6 amended: metric parsing removes all "%" characters (wherever they
occur) and parses the remainder as a decimal number, defaulting to 0 when
unparseable: "45%" gives 45.0, "" gives 0.0, "N/A" gives 0.0, and "4%5"
gives 45.0; in particular a trailing "%" never changes the parse. -/
theorem metric_parse_amended :
    parseMetric "45%" = 45 ∧ parseMetric "" = 0 ∧ parseMetric "N/A" = 0 ∧
    parseMetric "4%5" = 45 ∧
    (∀ s, parseMetric (s ++ "%") = parseMetric s) := by
  refine ⟨by decide, by decide, by decide, by decide, ?_⟩
  intro s
  have hstrip : stripPct (s ++ "%") = stripPct s := by
    obtain ⟨d⟩ := s
    show stripPct ⟨d ++ ['%']⟩ = stripPct ⟨d⟩
    simp [stripPct]
  simp [parseMetric, hstrip]

-- ---------------------------------------------------------------------------
-- C9: dataset filtering
-- ---------------------------------------------------------------------------

/-- C9: both filter passes (`filtered`, app.py lines 149-159, and
`filtered_t2`, lines 284-293) keep exactly the rows whose value lies in
every present dimension's allowed set, an absent (empty) dimension imposing
no restriction, the dimensions composing by conjunction; filtering by a
region value no row has returns the empty table (a value, not an
exception — the function is total). -/
theorem filters_conjunction :
    (∀ rows rf cf pf r, r ∈ filtered rows rf cf pf ↔
        r ∈ rows ∧ (rf = [] ∨ optMemB r.region rf = true) ∧
          (cf = [] ∨ optMemB r.category cf = true) ∧
          (pf = [] ∨ optMemB r.platform pf = true)) ∧
    (∀ rows rf cf ktf kf r, r ∈ filtered_t2 rows rf cf ktf kf ↔
        r ∈ rows ∧ (rf = [] ∨ optMemB r.region rf = true) ∧
          (cf = [] ∨ optMemB r.category cf = true) ∧
          (ktf = [] ∨ optMemB r.keywordType ktf = true) ∧
          (kf = [] ∨ optMemB r.keyword kf = true)) ∧
    (∀ rows v, (∀ r ∈ rows, optMemB r.region [v] = false) →
        filtered rows [v] [] [] = []) := by
  refine ⟨?_, ?_, ?_⟩
  · intro rows rf cf pf r
    simp only [filtered, mem_condFilter]
    tauto
  · intro rows rf cf ktf kf r
    simp only [filtered_t2, mem_condFilter]
    tauto
  · intro rows v h
    show rows.filter (fun r => optMemB r.region [v]) = []
    exact List.filter_eq_nil_iff.mpr (fun r hr => by simp [h r hr])

/-- C9 witness: filtering the duplicate-row table by a region value absent
from the data yields the empty table. -/
theorem filters_conjunction_witness : filtered dupRows ["Nowhere"] [] [] = [] :=
  filters_conjunction.2.2 dupRows "Nowhere" (by decide)

-- ---------------------------------------------------------------------------
-- C1: canonical-table invariant
-- ---------------------------------------------------------------------------

/-- C1 counterexample: `load_data` only enforces `MonthNum >= 4` (app.py line
100), never an upper bound, so the October row of `octSheet` is retained
with ordinal 10 ∉ [4,9]. -/
theorem month_window_upper_bound_false :
    ¬ (∀ r ∈ loadRows octSheet, 4 ≤ r.monthNum ∧ r.monthNum ≤ 9) := by decide

/-- C1 amended: every retained row has month ordinal ≥ 4 (and ≤ 12, since
all parsed ordinals are) and platform among Blinkit, Instamart, Zepto; rows
before April, with unparseable month text, or with an unmapped platform are
dropped — but no September upper bound is enforced, so ordinals 10-12 are
retained too. -/
theorem canonical_table_invariant (s : Sheet) (t : MTable) (h : load_data s = .ok t) :
    ∀ r ∈ t.rows, 4 ≤ r.monthNum ∧ r.monthNum ≤ 12 ∧
      (r.platform = some "Blinkit" ∨ r.platform = some "Instamart" ∨
        r.platform = some "Zepto") := by
  intro r hr
  obtain ⟨mc, pc, h1, h2, rfl⟩ := load_data_inv s t h
  obtain ⟨⟨raw, hraw, hb⟩, _, h4, h5⟩ := mem_mkTable s mc pc r hr
  obtain ⟨hpm, _, _, _, _, _, _⟩ := buildRow_inv s mc pc raw r hb
  refine ⟨h4, (parse_month_bounds _ _ hpm).2, ?_⟩
  simpa [platformOK] using h5

/-- C1 amended witness: the October row satisfies the amended invariant. -/
theorem canonical_table_invariant_witness :
    4 ≤ octRow.monthNum ∧ octRow.monthNum ≤ 12 ∧
      (octRow.platform = some "Blinkit" ∨ octRow.platform = some "Instamart" ∨
        octRow.platform = some "Zepto") :=
  canonical_table_invariant octSheet (mkTable octSheet "Month" "Platform") (by decide)
    octRow (by decide)

-- ---------------------------------------------------------------------------
-- C2: required-column failures
-- ---------------------------------------------------------------------------

/-- C2 counterexample: on a sheet where no header resolves the keyword role
(month and platform do resolve), `load_data` succeeds and returns a
non-empty canonical table — the `if keyword_col:` guard (app.py line 98)
silently skips the keyword filter instead of failing. -/
theorem required_columns_fatal_false :
    noKwSheet.headers.find? keywordP = none ∧ loadOk noKwSheet = true ∧
      loadRows noKwSheet ≠ [] := by decide

/-- C2 amended: an unresolvable month or platform column is fatal (the
unguarded `df[month_col]` on line 93 and `df[platform_col]` on line 103
raise `KeyError`), and when both resolve the load always succeeds — in
particular an unresolvable keyword column is not fatal; the keyword-sentinel
filter is simply skipped. -/
theorem required_columns_fatal_amended (s : Sheet) :
    ((s.headers.find? monthP = none ∨ s.headers.find? platformP = none) →
      load_data s = .error ()) ∧
    (s.headers.find? monthP ≠ none → s.headers.find? platformP ≠ none →
      ∃ t, load_data s = .ok t) := by
  constructor
  · intro h
    unfold load_data
    rcases h with h | h
    · rw [h]
    · rw [h]
      cases s.headers.find? monthP <;> rfl
  · intro h1 h2
    cases e1 : s.headers.find? monthP with
    | none => exact absurd e1 h1
    | some mc =>
      cases e2 : s.headers.find? platformP with
      | none => exact absurd e2 h2
      | some pc => exact ⟨mkTable s mc pc, by unfold load_data; rw [e1, e2]⟩

/-- C2 amended witness: a sheet without a month column makes `load_data`
fail. -/
theorem required_columns_fatal_amended_witness : load_data noMonthSheet = .error () :=
  (required_columns_fatal_amended noMonthSheet).1 (Or.inl (by decide))

-- ---------------------------------------------------------------------------
-- C7: metric value range
-- ---------------------------------------------------------------------------

/-- C7 counterexample: nothing clamps metric values to [0,100]: the cell
"150%" is stored as 150 in the canonical table. -/
theorem metric_range_invariant_false :
    ¬ (∀ r ∈ loadRows pctSheet, ∀ p ∈ r.vals, 0 ≤ p.2 ∧ p.2 ≤ 100) := by decide

/-- C7 amended: every metric value stored in the canonical table is exactly
the number parsed from the raw cell of its resolved metric column with all
"%" characters removed (missing or unparseable cells defaulting to 0 inside
`parseMetric`); no [0,100] range restriction is enforced. -/
theorem metric_values_amended (s : Sheet) (t : MTable) (h : load_data s = .ok t) :
    ∀ r ∈ t.rows, ∀ p ∈ r.vals,
      ∃ c, (p.1, some c) ∈ metricColsOf s ∧ p.2 = parseMetric (getCell r.raw c) := by
  intro r hr p hp
  obtain ⟨mc, pc, h1, h2, rfl⟩ := load_data_inv s t h
  obtain ⟨⟨raw, hraw, hb⟩, _, _, _⟩ := mem_mkTable s mc pc r hr
  obtain ⟨_, _, _, _, _, hvals, hraw2⟩ := buildRow_inv s mc pc raw r hb
  rw [hvals] at hp
  rw [hraw2]
  obtain ⟨q, hq, hqe⟩ := List.mem_filterMap.mp hp
  cases hcol : q.2 with
  | none => rw [hcol] at hqe; cases hqe
  | some c =>
    rw [hcol] at hqe
    injection hqe with h3
    subst h3
    refine ⟨c, ?_, rfl⟩
    have hqq : (q.1, some c) = q := by rw [← hcol]
    rw [hqq]
    exact hq

/-- C7 amended witness: the stored 150 is the parse of the raw "150%" cell
in the resolved Volume Share column. -/
theorem metric_values_amended_witness :
    ∃ c, ("Volume Share", some c) ∈ metricColsOf pctSheet ∧
      (150 : ℚ) = parseMetric (getCell pctRow.raw c) :=
  metric_values_amended pctSheet (mkTable pctSheet "Month" "Platform") (by decide)
    pctRow (by decide) ("Volume Share", 150) (by decide)

-- ---------------------------------------------------------------------------
-- C8: the "all" keyword sentinel filter
-- ---------------------------------------------------------------------------

/-- When the keyword column resolves and a source row's keyword cell equals
"all" case-insensitively, the canonical table is strictly shorter than the
input. -/
lemma mkTable_length_lt (s : Sheet) (mc pc kc : String)
    (hk : s.headers.find? keywordP = some kc)
    (raw : Raw) (hraw : raw ∈ s.rows) (hall : lowerStr (getCell raw kc) = "all") :
    (mkTable s mc pc).rows.length < s.rows.length := by
  simp only [mkTable, hk]
  have hfa : ∀ r, buildRow s mc pc raw = some r → (!isAllKeyword r) = false := by
    intro r hb
    obtain ⟨_, _, _, hkw, _, _, _⟩ := buildRow_inv s mc pc raw r hb
    have hkw2 : r.keyword = some (getCell raw kc) := by rw [hkw, hk]; rfl
    simp [isAllKeyword, hkw2, hall]
  have hlt :=
    filterMap_filter_length_lt (buildRow s mc pc) (fun r => !isAllKeyword r) s.rows raw hraw hfa
  calc ((((s.rows.filterMap (buildRow s mc pc)).filter (fun r => !isAllKeyword r)).filter
          (fun r => decide (4 ≤ r.monthNum))).filter platformOK).length
      ≤ (((s.rows.filterMap (buildRow s mc pc)).filter (fun r => !isAllKeyword r)).filter
          (fun r => decide (4 ≤ r.monthNum))).length := List.length_filter_le _ _
    _ ≤ ((s.rows.filterMap (buildRow s mc pc)).filter (fun r => !isAllKeyword r)).length :=
        List.length_filter_le _ _
    _ < s.rows.length := hlt

/-- C8: with a resolved keyword column, no canonical row's keyword equals
"all" case-insensitively; an input containing such a row loads to a table
strictly shorter than the input; and a keyword merely containing "all" as a
substring ("ball") is kept. -/
theorem keyword_all_filter (s : Sheet) (t : MTable) (kc : String)
    (h : load_data s = .ok t) (hk : s.headers.find? keywordP = some kc) :
    (∀ r ∈ t.rows, ∀ kw, r.keyword = some kw → ¬ lowerStr kw = "all") ∧
    (∀ raw ∈ s.rows, lowerStr (getCell raw kc) = "all" → t.rows.length < s.rows.length) ∧
    (loadRows ballSheet).map MRow.keyword = [some "ball"] := by
  obtain ⟨mc, pc, h1, h2, rfl⟩ := load_data_inv s t h
  refine ⟨?_, ?_, by decide⟩
  · intro r hr kw hkw hall
    obtain ⟨_, hkeep, _, _⟩ := mem_mkTable s mc pc r hr
    have hfalse := hkeep (by simp [hk])
    rw [isAllKeyword, hkw] at hfalse
    simp [hall] at hfalse
  · intro raw hraw hall
    exact mkTable_length_lt s mc pc kc hk raw hraw hall

/-- C8 witness: the sheet with an "ALL" keyword row loads to a strictly
smaller table (1 row from 2). -/
theorem keyword_all_filter_witness :
    (mkTable allSheet "Month" "Platform").rows.length < allSheet.rows.length :=
  (keyword_all_filter allSheet (mkTable allSheet "Month" "Platform") "Keyword"
      (by decide) (by decide)).2.1 allRaw (by decide) (by decide)

-- ---------------------------------------------------------------------------
-- C10: brand-strength loader keeps unmapped platforms
-- ---------------------------------------------------------------------------

/-- C10: `load_brand_strength` applies no platform allow-list and no upper
month bound — the November "swiggy" row is kept with ordinal 11 and a
missing platform — every kept row only needs ordinal ≥ 4, and a row with a
missing platform is in none of the three per-platform selections tab 3
renders. -/
theorem brand_strength_no_allowlist :
    ((loadBSRows bsSheet).map (fun r => (r.monthNum, r.platform)) =
        [(11, (none : Option String))]) ∧
    (∀ (s : Sheet) (t : BSTable), load_brand_strength s = .ok t →
      (∀ r ∈ t.rows, 4 ≤ r.monthNum) ∧
      (∀ r ∈ t.rows, r.platform = none → ∀ p ∈ tab3Platforms, r ∉ tab3Select t.rows p)) := by
  refine ⟨by decide, ?_⟩
  intro s t h
  have hrows : ∃ pc mc bc, t = mkBSTable s pc mc bc := by
    unfold load_brand_strength at h
    split at h
    · rename_i pc mc bc h1 h2 h3
      exact ⟨pc, mc, bc, by injection h with h4; exact h4.symm⟩
    · cases h
  obtain ⟨pc, mc, bc, rfl⟩ := hrows
  constructor
  · intro r hr
    have h5 := (List.mem_filter.mp hr).2
    simpa using h5
  · intro r hr hnone p hp hmem
    have h6 := (List.mem_filter.mp hmem).2
    rw [hnone] at h6
    simp at h6

/-- C10 witness: the kept swiggy row appears in no per-platform selection. -/
theorem brand_strength_no_allowlist_witness :
    bsRowNov ∉ tab3Select (mkBSTable bsSheet "Platform" "Month" "Brand Strength").rows "Blinkit" :=
  (brand_strength_no_allowlist.2 bsSheet
      (mkBSTable bsSheet "Platform" "Month" "Brand Strength") (by decide)).2
    bsRowNov (by decide) (by decide) "Blinkit" (by decide)

end GoDesi
